import Mathlib

/-!
Shallow embedding of `pyleapsec.py` (class `LeapSecondConverter`).

Modelling conventions, chosen to mirror the Python runtime exactly where the
claims depend on it:

* A `datetime.datetime` instant is an integer count of microseconds since
  1970-01-01T00:00:00 (Python datetimes have microsecond resolution and
  exact integer arithmetic on them).
* `datetime.timedelta(seconds=f)` rounds `f` seconds to the nearest
  microsecond; `secondsToMicros` models that conversion.  The float offsets
  read from the table are modelled as exact rationals (the table values such
  as `10.0` are exactly representable as doubles, and every claim is about
  the order/arithmetic structure, not about binary rounding).
* `time.time()` readings are integers (the code compares them with the
  integer `_last_refresh + _refresh_seconds`).
* Python exceptions are explicit error values (`BuildError`, `PyErr`).
* The network fetch and the file system are external collaborators: a
  refresh receives the raw fetched bytes as a `String` argument, and the
  directory routines receive the `os.listdir` enumeration and `isdir`
  answers as arguments.
-/

namespace Pyleapsec

/-- Days of the proleptic Gregorian calendar between `y-m-d` and 1970-01-01
(the classic `days_from_civil` computation); models the day count that
`datetime.datetime(year, month, day)` denotes. -/
def daysFromCivil (y m d : Int) : Int :=
  let y1 := if m ≤ 2 then y - 1 else y
  let era := (if 0 ≤ y1 then y1 else y1 - 399) / 400
  let yoe := y1 - era * 400
  let mp := (m + 9) % 12
  let doy := (153 * mp + 2) / 5 + d - 1
  let doe := yoe * 365 + yoe / 4 - yoe / 100 + doy
  era * 146097 + doe - 719468

/-- Value of `datetime.datetime(y, m, d)` as microseconds since 1970-01-01. -/
def datetimeMicros (y m d : Int) : Int :=
  daysFromCivil y m d * 86400000000

/-- Value of `datetime.timedelta(seconds=q)` as an exact microsecond count:
Python rounds the seconds value to the nearest microsecond.  Written with
integer division so that the kernel can evaluate it; the lemma
`secondsToMicros_eq_round` identifies it with `round (q * 1000000)`. -/
def secondsToMicros (q : ℚ) : Int :=
  (2 * q.num * 1000000 + (q.den : Int)) / (2 * (q.den : Int))

theorem secondsToMicros_eq_round (q : ℚ) :
    secondsToMicros q = round (q * 1000000) := by
  have hden : ((q.den : ℚ)) ≠ 0 := by
    exact_mod_cast q.den_nz
  have hnum : (q.num : ℚ) = q * (q.den : ℚ) := by
    have h := Rat.num_div_den q
    rw [div_eq_iff hden] at h
    exact h
  have h2den : ((2 * q.den : ℕ) : ℚ) ≠ 0 := by
    push_cast
    intro hc
    exact hden (by linarith)
  have hval : q * 1000000 + 1 / 2 =
      ((2 * q.num * 1000000 + (q.den : Int) : Int) : ℚ) / ((2 * q.den : ℕ) : ℚ) := by
    rw [eq_div_iff h2den]
    push_cast
    linear_combination (-2000000 : ℚ) * hnum
  unfold secondsToMicros
  rw [round_eq, hval, Rat.floor_intCast_div_natCast]
  norm_num

theorem secondsToMicros_mono {a b : ℚ} (h : a ≤ b) :
    secondsToMicros a ≤ secondsToMicros b := by
  rw [secondsToMicros_eq_round, secondsToMicros_eq_round, round_eq, round_eq]
  apply Int.floor_le_floor
  have : a * 1000000 ≤ b * 1000000 := by nlinarith
  linarith

/-- One entry of `self.leaptable`: the tuple
`(utc_dt, tai_dt, tai_utc_difference)` built in `_build_leaptable`. -/
structure LeapRec where
  utc : Int
  tai : Int
  offset : ℚ
deriving DecidableEq

/-- The scan loop of `_tai_minus_utc_at_utc`: walk the table in order,
break at the first record with `leaprec[0] > utc_dt`, remembering the
offset of the last record not past the instant (`leapseconds` starts at 0
in the caller). -/
def tai_minus_utc_go_utc : List LeapRec → Int → ℚ → ℚ
  | [], _, leapseconds => leapseconds
  | r :: rest, utc_dt, leapseconds =>
    if utc_dt < r.utc then leapseconds
    else tai_minus_utc_go_utc rest utc_dt r.offset

/-- Method `LeapSecondConverter._tai_minus_utc_at_utc` (the pure scan, with no
staleness check; the stateful wrapper is `tai_minus_utc_at_utc_op`). -/
def tai_minus_utc_at_utc (leaptable : List LeapRec) (utc_dt : Int) : ℚ :=
  tai_minus_utc_go_utc leaptable utc_dt 0

/-- The scan loop of `_tai_minus_utc_at_tai`, keyed on `leaprec[1]`. -/
def tai_minus_utc_go_tai : List LeapRec → Int → ℚ → ℚ
  | [], _, leapseconds => leapseconds
  | r :: rest, tai_dt, leapseconds =>
    if tai_dt < r.tai then leapseconds
    else tai_minus_utc_go_tai rest tai_dt r.offset

/-- Method `LeapSecondConverter._tai_minus_utc_at_tai` (the pure scan). -/
def tai_minus_utc_at_tai (leaptable : List LeapRec) (tai_dt : Int) : ℚ :=
  tai_minus_utc_go_tai leaptable tai_dt 0

/-- Method `LeapSecondConverter.utc_to_tai`:
`utc_dt + datetime.timedelta(seconds=leapseconds)`. -/
def utc_to_tai (leaptable : List LeapRec) (utc_dt : Int) : Int :=
  utc_dt + secondsToMicros (tai_minus_utc_at_utc leaptable utc_dt)

/-- Method `LeapSecondConverter.tai_to_utc`:
`tai_dt - datetime.timedelta(seconds=leapseconds)`. -/
def tai_to_utc (leaptable : List LeapRec) (tai_dt : Int) : Int :=
  tai_dt - secondsToMicros (tai_minus_utc_at_tai leaptable tai_dt)

/-- Class attribute `utc_unix_epoch = datetime.datetime(1970, 1, 1)`. -/
def utc_unix_epoch : Int := datetimeMicros 1970 1 1

/-- Class attribute `utc_gps_epoch = datetime.datetime(1980, 1, 6)`. -/
def utc_gps_epoch : Int := datetimeMicros 1980 1 6

/-- Rule stated by the spec for `offsetAtUTC`, written from the spec's
words: find the greatest `i` such that `record[i].effectiveUTC <= utcInstant`
and return `record[i].offsetSeconds`, or 0 if none (the last element of the
filtered list is the record of greatest index, since `filter` preserves
positions). -/
def specOffsetAtUTC (tbl : List LeapRec) (t : Int) : ℚ :=
  match (tbl.filter (fun r => decide (r.utc ≤ t))).getLast? with
  | some r => r.offset
  | none => 0

/-- The spec's identical rule keyed on `effectiveTAI`, for `offsetAtTAI`. -/
def specOffsetAtTAI (tbl : List LeapRec) (t : Int) : ℚ :=
  match (tbl.filter (fun r => decide (r.tai ≤ t))).getLast? with
  | some r => r.offset
  | none => 0

theorem tai_minus_utc_go_utc_acc_le : ∀ (tbl : List LeapRec) (t : Int) (a : ℚ),
    tbl.Pairwise (fun p q => p.offset ≤ q.offset) →
    (∀ r ∈ tbl.head?, a ≤ r.offset) →
    a ≤ tai_minus_utc_go_utc tbl t a := by
  intro tbl
  induction tbl with
  | nil =>
    intro t a _ _
    simp [tai_minus_utc_go_utc]
  | cons r rest ih =>
    intro t a hoff hhead
    rcases List.pairwise_cons.mp hoff with ⟨h1, h2⟩
    rw [tai_minus_utc_go_utc]
    by_cases hb : t < r.utc
    · rw [if_pos hb]
    · rw [if_neg hb]
      have har : a ≤ r.offset := hhead r (by simp)
      have hrec : r.offset ≤ tai_minus_utc_go_utc rest t r.offset :=
        ih t r.offset h2 (fun b hb' => h1 b (List.mem_of_mem_head? hb'))
      exact le_trans har hrec

theorem tai_minus_utc_go_utc_eq_filter : ∀ (tbl : List LeapRec) (t : Int) (a : ℚ),
    tbl.Pairwise (fun p q => p.utc ≤ q.utc) →
    tai_minus_utc_go_utc tbl t a =
      (match (tbl.filter (fun r => decide (r.utc ≤ t))).getLast? with
       | some r => r.offset
       | none => a) := by
  intro tbl
  induction tbl with
  | nil =>
    intro t a _
    simp [tai_minus_utc_go_utc]
  | cons r rest ih =>
    intro t a hsort
    rcases List.pairwise_cons.mp hsort with ⟨h1, h2⟩
    rw [tai_minus_utc_go_utc]
    by_cases hb : t < r.utc
    · rw [if_pos hb]
      have hfr : rest.filter (fun x => decide (x.utc ≤ t)) = [] := by
        rw [List.filter_eq_nil_iff]
        intro b hb'
        have : r.utc ≤ b.utc := h1 b hb'
        simp only [decide_eq_true_eq]
        omega
      have hne : ¬ (r.utc ≤ t) := by omega
      simp [List.filter_cons, hne, hfr]
    · rw [if_neg hb]
      have hr : r.utc ≤ t := by omega
      rw [ih t r.offset h2]
      have hcons : (r :: rest).filter (fun x => decide (x.utc ≤ t)) =
          r :: rest.filter (fun x => decide (x.utc ≤ t)) := by
        simp [List.filter_cons, hr]
      rw [hcons]
      cases hf : rest.filter (fun x => decide (x.utc ≤ t)) with
      | nil => simp
      | cons b l =>
        rw [List.getLast?_cons_cons]
        cases hg : (b :: l).getLast? with
        | none => simp [List.getLast?_eq_none_iff] at hg
        | some y => rfl

theorem tai_minus_utc_go_tai_eq_filter : ∀ (tbl : List LeapRec) (t : Int) (a : ℚ),
    tbl.Pairwise (fun p q => p.tai ≤ q.tai) →
    tai_minus_utc_go_tai tbl t a =
      (match (tbl.filter (fun r => decide (r.tai ≤ t))).getLast? with
       | some r => r.offset
       | none => a) := by
  intro tbl
  induction tbl with
  | nil =>
    intro t a _
    simp [tai_minus_utc_go_tai]
  | cons r rest ih =>
    intro t a hsort
    rcases List.pairwise_cons.mp hsort with ⟨h1, h2⟩
    rw [tai_minus_utc_go_tai]
    by_cases hb : t < r.tai
    · rw [if_pos hb]
      have hfr : rest.filter (fun x => decide (x.tai ≤ t)) = [] := by
        rw [List.filter_eq_nil_iff]
        intro b hb'
        have : r.tai ≤ b.tai := h1 b hb'
        simp only [decide_eq_true_eq]
        omega
      have hne : ¬ (r.tai ≤ t) := by omega
      simp [List.filter_cons, hne, hfr]
    · rw [if_neg hb]
      have hr : r.tai ≤ t := by omega
      rw [ih t r.offset h2]
      have hcons : (r :: rest).filter (fun x => decide (x.tai ≤ t)) =
          r :: rest.filter (fun x => decide (x.tai ≤ t)) := by
        simp [List.filter_cons, hr]
      rw [hcons]
      cases hf : rest.filter (fun x => decide (x.tai ≤ t)) with
      | nil => simp
      | cons b l =>
        rw [List.getLast?_cons_cons]
        cases hg : (b :: l).getLast? with
        | none => simp [List.getLast?_eq_none_iff] at hg
        | some y => rfl

theorem tai_minus_utc_go_mono : ∀ (tbl : List LeapRec) (t1 t2 : Int) (a : ℚ),
    t1 ≤ t2 →
    tbl.Pairwise (fun p q => p.offset ≤ q.offset) →
    (∀ r ∈ tbl.head?, a ≤ r.offset) →
    tai_minus_utc_go_utc tbl t1 a ≤ tai_minus_utc_go_utc tbl t2 a := by
  intro tbl
  induction tbl with
  | nil =>
    intro t1 t2 a _ _ _
    simp [tai_minus_utc_go_utc]
  | cons r rest ih =>
    intro t1 t2 a h12 hoff hhead
    rcases List.pairwise_cons.mp hoff with ⟨h1, h2⟩
    rw [tai_minus_utc_go_utc, tai_minus_utc_go_utc]
    by_cases hb2 : t2 < r.utc
    · have hb1 : t1 < r.utc := by omega
      rw [if_pos hb1, if_pos hb2]
    · by_cases hb1 : t1 < r.utc
      · rw [if_pos hb1, if_neg hb2]
        have har : a ≤ r.offset := hhead r (by simp)
        have hrec : r.offset ≤ tai_minus_utc_go_utc rest t2 r.offset :=
          tai_minus_utc_go_utc_acc_le rest t2 r.offset h2
            (fun b hb' => h1 b (List.mem_of_mem_head? hb'))
        exact le_trans har hrec
      · rw [if_neg hb1, if_neg hb2]
        exact ih t1 t2 r.offset h12 h2 (fun b hb' => h1 b (List.mem_of_mem_head? hb'))

theorem tai_minus_utc_go_roundtrip : ∀ (tbl : List LeapRec) (x : Int) (a : ℚ),
    tbl.Pairwise (fun p q => p.utc ≤ q.utc) →
    tbl.Pairwise (fun p q => p.offset ≤ q.offset) →
    (∀ r ∈ tbl, r.tai = r.utc + secondsToMicros r.offset) →
    (∀ r ∈ tbl.head?, x < r.utc → a ≤ r.offset) →
    tai_minus_utc_go_tai tbl (x + secondsToMicros (tai_minus_utc_go_utc tbl x a)) a
      = tai_minus_utc_go_utc tbl x a := by
  intro tbl
  induction tbl with
  | nil =>
    intro x a _ _ _ _
    simp [tai_minus_utc_go_utc, tai_minus_utc_go_tai]
  | cons r rest ih =>
    intro x a hsort hoff htai hhead
    rcases List.pairwise_cons.mp hsort with ⟨hs1, hs2⟩
    rcases List.pairwise_cons.mp hoff with ⟨ho1, ho2⟩
    have htr : r.tai = r.utc + secondsToMicros r.offset := htai r (by simp)
    by_cases hb : x < r.utc
    · rw [tai_minus_utc_go_utc, if_pos hb, tai_minus_utc_go_tai]
      have ha : a ≤ r.offset := hhead r (by simp) hb
      have hlt : x + secondsToMicros a < r.tai := by
        rw [htr]
        have := secondsToMicros_mono ha
        omega
      rw [if_pos hlt]
    · have hr : r.utc ≤ x := by omega
      rw [tai_minus_utc_go_utc, if_neg hb]
      have hro : r.offset ≤ tai_minus_utc_go_utc rest x r.offset :=
        tai_minus_utc_go_utc_acc_le rest x r.offset ho2
          (fun b hb' => ho1 b (List.mem_of_mem_head? hb'))
      rw [tai_minus_utc_go_tai]
      have hnb : ¬ (x + secondsToMicros (tai_minus_utc_go_utc rest x r.offset) < r.tai) := by
        rw [htr]
        have := secondsToMicros_mono hro
        omega
      rw [if_neg hnb]
      exact ih x r.offset hs2 ho2
        (fun r' hm => htai r' (List.mem_cons_of_mem _ hm))
        (fun b hb' _ => ho1 b (List.mem_of_mem_head? hb'))

/-- The two records of the spec's concrete scenario:
`(1972-01-01, 1972-01-01T00:00:10, 10.0)` and
`(1972-07-01, 1972-07-01T00:00:11, 11.0)`. -/
def rec72a : LeapRec :=
  ⟨datetimeMicros 1972 1 1, datetimeMicros 1972 1 1 + secondsToMicros 10, 10⟩

def rec72b : LeapRec :=
  ⟨datetimeMicros 1972 7 1, datetimeMicros 1972 7 1 + secondsToMicros 11, 11⟩

def tbl72 : List LeapRec := [rec72a, rec72b]

/-- A table that satisfies C6's stated hypotheses (sorted, non-decreasing
offsets) but has a negative offset. -/
def negRec : LeapRec := ⟨0, secondsToMicros (-5), -5⟩

def negTbl : List LeapRec := [negRec]

/-- C1: for every UTC instant `x` on or after the table's earliest entry
(the table being sorted ascending by `effectiveUTC`, with non-decreasing
offsets, and each record satisfying `effectiveTAI = effectiveUTC + offset`,
no refresh being triggered), `tai_to_utc (utc_to_tai x) = x`. -/
theorem c1_utc_tai_roundtrip (r0 : LeapRec) (rest : List LeapRec) (x : Int)
    (hsort : (r0 :: rest).Pairwise (fun p q => p.utc ≤ q.utc))
    (hoff : (r0 :: rest).Pairwise (fun p q => p.offset ≤ q.offset))
    (htai : ∀ r ∈ r0 :: rest, r.tai = r.utc + secondsToMicros r.offset)
    (hx : r0.utc ≤ x) :
    tai_to_utc (r0 :: rest) (utc_to_tai (r0 :: rest) x) = x := by
  unfold utc_to_tai tai_to_utc tai_minus_utc_at_utc tai_minus_utc_at_tai
  rw [tai_minus_utc_go_roundtrip (r0 :: rest) x 0 hsort hoff htai]
  · omega
  · intro r hr hlt
    simp only [List.head?_cons, Option.mem_def, Option.some.injEq] at hr
    subst hr
    omega

/-- C1 witness: the round trip at 1972-03-15 over the spec's concrete
1972 table. -/
theorem c1_witness :
    tai_to_utc tbl72 (utc_to_tai tbl72 (datetimeMicros 1972 3 15)) =
      datetimeMicros 1972 3 15 :=
  c1_utc_tai_roundtrip rec72a [rec72b] (datetimeMicros 1972 3 15)
    (by decide) (by decide) (by decide) (by decide)

/-- C4: on a table sorted ascending by the relevant key, the scan of
`_tai_minus_utc_at_utc` returns the offset of the record of greatest index
whose `effectiveUTC` is `≤ t` (0 if none; the boundary is inclusive since
the comparison is `≤`), and the analogous rule keyed on `effectiveTAI`
holds for `_tai_minus_utc_at_tai`. -/
theorem c4_lookup_follows_spec (tbl : List LeapRec) (t : Int) :
    (tbl.Pairwise (fun p q => p.utc ≤ q.utc) →
      tai_minus_utc_at_utc tbl t = specOffsetAtUTC tbl t) ∧
    (tbl.Pairwise (fun p q => p.tai ≤ q.tai) →
      tai_minus_utc_at_tai tbl t = specOffsetAtTAI tbl t) := by
  constructor
  · intro hsort
    unfold tai_minus_utc_at_utc specOffsetAtUTC
    exact tai_minus_utc_go_utc_eq_filter tbl t 0 hsort
  · intro hsort
    unfold tai_minus_utc_at_tai specOffsetAtTAI
    exact tai_minus_utc_go_tai_eq_filter tbl t 0 hsort

/-- C4 witness: the spec's concrete scenario, including the inclusive
boundary at 1972-07-01 and the pre-table instant 1971-01-01. -/
theorem c4_witness :
    tai_minus_utc_at_utc tbl72 (datetimeMicros 1972 7 1) =
      specOffsetAtUTC tbl72 (datetimeMicros 1972 7 1) ∧
    tai_minus_utc_at_utc tbl72 (datetimeMicros 1972 7 1) = 11 ∧
    tai_minus_utc_at_utc tbl72 (datetimeMicros 1972 3 15) = 10 ∧
    tai_minus_utc_at_utc tbl72 (datetimeMicros 1971 1 1) = 0 :=
  ⟨(c4_lookup_follows_spec tbl72 (datetimeMicros 1972 7 1)).1 (by decide),
   by decide, by decide, by decide⟩

/-- C6 counterexample: a table sorted ascending by `effectiveUTC` with
(vacuously) non-decreasing offsets on which `_tai_minus_utc_at_utc` is not
monotone: the single offset is negative, so the pre-table value 0 exceeds
it. -/
theorem c6_counterexample :
    negTbl.Pairwise (fun p q => p.utc ≤ q.utc) ∧
    negTbl.Pairwise (fun p q => p.offset ≤ q.offset) ∧
    (-1 : Int) ≤ 0 ∧
    ¬ (tai_minus_utc_at_utc negTbl (-1) ≤ tai_minus_utc_at_utc negTbl 0) := by
  refine ⟨?_, ?_, ?_, ?_⟩ <;> decide

/-- C6 amended: with the additional hypothesis that offsets are
non-negative (true of every published TAI−UTC table), `_tai_minus_utc_at_utc`
is a non-decreasing function of its input. -/
theorem c6_offset_monotone_amended (tbl : List LeapRec) (t1 t2 : Int)
    (hsort : tbl.Pairwise (fun p q => p.utc ≤ q.utc))
    (hoff : tbl.Pairwise (fun p q => p.offset ≤ q.offset))
    (hnn : ∀ r ∈ tbl, 0 ≤ r.offset)
    (h12 : t1 ≤ t2) :
    tai_minus_utc_at_utc tbl t1 ≤ tai_minus_utc_at_utc tbl t2 := by
  unfold tai_minus_utc_at_utc
  exact tai_minus_utc_go_mono tbl t1 t2 0 h12 hoff
    (fun r hr => hnn r (List.mem_of_mem_head? hr))

/-- C6 witness: monotonicity across the 1972-07-01 boundary on the spec's
concrete table. -/
theorem c6_witness :
    tai_minus_utc_at_utc tbl72 (datetimeMicros 1971 1 1) ≤
      tai_minus_utc_at_utc tbl72 (datetimeMicros 1972 7 1) :=
  c6_offset_monotone_amended tbl72 (datetimeMicros 1971 1 1)
    (datetimeMicros 1972 7 1) (by decide) (by decide) (by decide) (by decide)

/-- Python `str.split('\n')`: split at every newline, keeping empty pieces. -/
def splitLinesGo : List Char → List Char → List String
  | [], cur => [String.mk cur.reverse]
  | c :: rest, cur =>
    if c = '\n' then String.mk cur.reverse :: splitLinesGo rest []
    else splitLinesGo rest (c :: cur)

def pySplitLines (s : String) : List String := splitLinesGo s.data []

/-- Python `str.split()` with no argument: split on runs of whitespace and
drop empty tokens. -/
def splitWsGo : List Char → List Char → List String
  | [], cur => if cur.isEmpty then [] else [String.mk cur.reverse]
  | c :: rest, cur =>
    if c.isWhitespace then
      if cur.isEmpty then splitWsGo rest []
      else String.mk cur.reverse :: splitWsGo rest []
    else splitWsGo rest (c :: cur)

def pySplit (s : String) : List String := splitWsGo s.data []

/-- The natural number denoted by a list of decimal digits. -/
def natOfDigits (cs : List Char) : Nat :=
  cs.foldl (fun a c => a * 10 + (c.toNat - 48)) 0

/-- Python `int(token)` on the table's tokens (optional sign, decimal
digits). -/
def pyToInt (s : String) : Option Int :=
  match s.data with
  | '-' :: cs =>
    if cs ≠ [] ∧ cs.all (fun c => c.isDigit) then some (-(natOfDigits cs : Int))
    else none
  | '+' :: cs =>
    if cs ≠ [] ∧ cs.all (fun c => c.isDigit) then some ((natOfDigits cs : Int))
    else none
  | cs =>
    if cs ≠ [] ∧ cs.all (fun c => c.isDigit) then some ((natOfDigits cs : Int))
    else none

def parseRatCore (cs : List Char) : Option ℚ :=
  let ip := cs.takeWhile (fun c => c != '.')
  match cs.dropWhile (fun c => c != '.') with
  | [] =>
    if ip ≠ [] ∧ ip.all (fun c => c.isDigit) then some (mkRat (natOfDigits ip) 1)
    else none
  | _ :: frac =>
    if (ip ≠ [] ∨ frac ≠ []) ∧ ip.all (fun c => c.isDigit) ∧
        frac.all (fun c => c.isDigit) then
      some (mkRat (natOfDigits ip * 10 ^ frac.length + natOfDigits frac)
        (10 ^ frac.length))
    else none

/-- Python `float(token)` on the table's offset tokens (optional sign,
decimal digits, optional fractional part), as an exact rational. -/
def parseRat (s : String) : Option ℚ :=
  match s.data with
  | '-' :: cs => (parseRatCore cs).map (fun q => -q)
  | '+' :: cs => parseRatCore cs
  | cs => parseRatCore cs

/-- The Python exceptions that `_build_leaptable` can raise. -/
inductive BuildError where
  /-- `KeyError`: `self._month_abbr_to_num[tokens[1]]` with an unknown key
  (an unrecognized month token). -/
  | keyError (tok : String)
  /-- `ValueError`: `int(...)` or `float(...)` on an unparseable token. -/
  | valueError (tok : String)
deriving DecidableEq

/-- Class attribute
`_month_abbr_to_num = {name.upper(): num for num, name in enumerate(calendar.month_abbr) if num}`:
a dictionary keyed by the UPPERCASE three-letter abbreviations.  The lookup
`self._month_abbr_to_num[tokens[1]]` performs no case normalization on the
token. -/
def monthAbbrToNum (s : String) : Option Nat :=
  if s = "JAN" then some 1
  else if s = "FEB" then some 2
  else if s = "MAR" then some 3
  else if s = "APR" then some 4
  else if s = "MAY" then some 5
  else if s = "JUN" then some 6
  else if s = "JUL" then some 7
  else if s = "AUG" then some 8
  else if s = "SEP" then some 9
  else if s = "OCT" then some 10
  else if s = "NOV" then some 11
  else if s = "DEC" then some 12
  else none

/-- The keys of `_month_abbr_to_num`. -/
def monthAbbrs : List String :=
  ["JAN", "FEB", "MAR", "APR", "MAY", "JUN",
   "JUL", "AUG", "SEP", "OCT", "NOV", "DEC"]

/-- The loop body of `_build_leaptable`: process the remaining lines,
appending each parsed record to the table built so far (`self.leaptable`
is mutated in place, so on an exception the partial list is what remains);
the returned error is the exception that aborted the loop, if any. -/
def buildLeaptableAux : List String → List LeapRec → List LeapRec × Option BuildError
  | [], acc => (acc, none)
  | line :: rest, acc =>
    let tokens := pySplit line
    if tokens.length < 7 then buildLeaptableAux rest acc
    else
      match pyToInt (tokens.getD 0 "") with
      | none => (acc, some (.valueError (tokens.getD 0 "")))
      | some year =>
        match monthAbbrToNum (tokens.getD 1 "") with
        | none => (acc, some (.keyError (tokens.getD 1 "")))
        | some month =>
          match pyToInt (tokens.getD 2 "") with
          | none => (acc, some (.valueError (tokens.getD 2 "")))
          | some day =>
            match parseRat (tokens.getD 6 "") with
            | none => (acc, some (.valueError (tokens.getD 6 "")))
            | some diff =>
              let utc_dt := datetimeMicros year (month : Int) day
              let tai_dt := utc_dt + secondsToMicros diff
              buildLeaptableAux rest (acc ++ [⟨utc_dt, tai_dt, diff⟩])

/-- Method `LeapSecondConverter._build_leaptable`: `self.leaptable = []` followed
by the parsing loop; returns the table state it leaves behind and the
exception, if one was raised. -/
def buildLeaptable (raw : String) : List LeapRec × Option BuildError :=
  buildLeaptableAux (pySplitLines raw) []

/-- The mutable state of a `LeapSecondConverter` instance (the class
attributes `utc_unix_epoch`/`utc_gps_epoch` are module-level constants and
are never assigned). -/
structure ConvState where
  leaptable : List LeapRec
  last_refresh : Int
  refresh_seconds : Int
  tai_gps_epoch : Int
  tai_unix_epoch : Int
deriving DecidableEq

/-- Method `LeapSecondConverter._refresh`, given the raw bytes the fetch returned
and the current `int(time.time())`: rebuild the table; only if that did not
raise is `self._last_refresh` updated (the `_save_file` call is external
I/O with no effect on converter state). -/
def refresh (s : ConvState) (now : Int) (raw : String) : ConvState × Option BuildError :=
  match buildLeaptable raw with
  | (tbl, none) => ({ s with leaptable := tbl, last_refresh := now }, none)
  | (tbl, some e) => ({ s with leaptable := tbl }, some e)

/-- Lines 52-54 of the constructor: after the table is first built, the
derived epochs are computed from it:
`self.tai_gps_epoch = self.utc_to_tai(self.utc_gps_epoch)` and
`self.tai_unix_epoch = self.utc_to_tai(self.utc_unix_epoch)`. -/
def mkState (tbl0 : List LeapRec) (last0 interval : Int) : ConvState :=
  { leaptable := tbl0
    last_refresh := last0
    refresh_seconds := interval
    tai_gps_epoch := utc_to_tai tbl0 utc_gps_epoch
    tai_unix_epoch := utc_to_tai tbl0 utc_unix_epoch }

/-- A previously loaded one-record table and a converter state holding it,
used to exhibit what a failing refresh does to existing state. -/
def oldRec : LeapRec := ⟨0, 10000000, 10⟩

def stOld : ConvState := ⟨[oldRec], 50, 100, 7, 8⟩

/-- A raw table whose first line is well-formed and whose second line has
an unrecognized month token. -/
def badRaw : String := "1972 JAN 1 0 0 0 10.0\n1972 FOO 1 0 0 0 11.0"

/-- C2 counterexample: a refresh on a raw table whose second line has the
unrecognized month token "FOO" does fail with the month `KeyError`, but the
previously loaded table does NOT remain in place: `_build_leaptable` starts
with `self.leaptable = []` and appends in place, so the state after the
failed refresh holds the partial table of records parsed before the bad
line, not the pre-refresh table. -/
theorem c2_counterexample :
    (refresh stOld 60 badRaw).2 = some (BuildError.keyError "FOO") ∧
    ¬ ((refresh stOld 60 badRaw).1.leaptable = stOld.leaptable) := by
  constructor
  · decide
  · decide

/-- C2 amended: when the parse of the raw table aborts with the month
`KeyError` (the only source of `KeyError` in `_build_leaptable`), the
refresh propagates that error and leaves `_last_refresh` and both derived
epochs unchanged, but replaces `leaptable` with the partial table of
records parsed before the offending line; the previous table is lost. -/
theorem c2_refresh_error_state (s : ConvState) (now : Int) (raw : String)
    (tbl : List LeapRec) (tok : String)
    (h : buildLeaptable raw = (tbl, some (BuildError.keyError tok))) :
    refresh s now raw = ({ s with leaptable := tbl }, some (BuildError.keyError tok)) := by
  unfold refresh
  rw [h]

/-- C2 witness: the amended statement at the concrete failing raw table. -/
theorem c2_witness :
    refresh stOld 60 badRaw =
      ({ stOld with leaptable := [rec72a] }, some (BuildError.keyError "FOO")) :=
  c2_refresh_error_state stOld 60 badRaw [rec72a] "FOO" (by decide)

/-- C7 counterexample: a line whose month token is "Jan" — a correctly
spelled three-letter abbreviation that is not all-uppercase — does not
produce a record: the parse fails with `KeyError "Jan"`, because the
dictionary keys are upper-cased but the looked-up token is not. -/
theorem c7_counterexample :
    buildLeaptable "1972 Jan 1 0 0 0 10.0" = ([], some (BuildError.keyError "Jan")) := by
  decide

set_option maxHeartbeats 2000000 in
/-- C7 amended: the month lookup is case-sensitive: a token maps to a month
number only if it is one of the twelve UPPERCASE abbreviations; an
all-uppercase line parses to a record while the "Jan"/"jan" spellings of
the same line fail with the month `KeyError`. -/
theorem c7_month_lookup_uppercase_only :
    (∀ (s : String) (n : Nat), monthAbbrToNum s = some n → s ∈ monthAbbrs) ∧
    buildLeaptable "1972 JAN 1 0 0 0 10.0" = ([rec72a], none) ∧
    buildLeaptable "1972 Jan 1 0 0 0 10.0" = ([], some (BuildError.keyError "Jan")) ∧
    buildLeaptable "1972 jan 1 0 0 0 10.0" = ([], some (BuildError.keyError "jan")) := by
  refine ⟨?_, by decide, by decide, by decide⟩
  intro s n h
  unfold monthAbbrToNum at h
  split_ifs at h with e1 e2 e3 e4 e5 e6 e7 e8 e9 e10 e11 e12
  · subst e1; decide
  · subst e2; decide
  · subst e3; decide
  · subst e4; decide
  · subst e5; decide
  · subst e6; decide
  · subst e7; decide
  · subst e8; decide
  · subst e9; decide
  · subst e10; decide
  · subst e11; decide
  · subst e12; decide

/-- C7 witness: the amended statement instantiated at the uppercase token. -/
theorem c7_witness : "JAN" ∈ monthAbbrs :=
  c7_month_lookup_uppercase_only.1 "JAN" 1 (by decide)

/-- C9: `_refresh` never writes the derived epoch fields: whatever state a
constructed converter is in, after any refresh (successful or failed)
`tai_gps_epoch` and `tai_unix_epoch` are unchanged — while `mkState` shows
they were computed at construction, from the table loaded at that time
(`utc_unix_epoch`/`utc_gps_epoch` are module-level constants that nothing
ever reassigns). -/
theorem c9_epochs_not_recomputed (s : ConvState) (now : Int) (raw : String)
    (tbl0 : List LeapRec) (last0 interval : Int) :
    ((refresh s now raw).1.tai_gps_epoch = s.tai_gps_epoch ∧
     (refresh s now raw).1.tai_unix_epoch = s.tai_unix_epoch) ∧
    (mkState tbl0 last0 interval).tai_gps_epoch = utc_to_tai tbl0 utc_gps_epoch ∧
    (mkState tbl0 last0 interval).tai_unix_epoch = utc_to_tai tbl0 utc_unix_epoch := by
  refine ⟨⟨?_, ?_⟩, rfl, rfl⟩ <;>
    · unfold refresh
      rcases buildLeaptable raw with ⟨tbl, e⟩
      cases e <;> rfl

/-- Method `LeapSecondConverter.utc_to_unix`:
`(utc_dt - self.utc_unix_epoch).total_seconds()`, in seconds. -/
def utc_to_unix (utc_dt : Int) : ℚ :=
  ((utc_dt - utc_unix_epoch : Int) : ℚ) / 1000000

/-- Method `LeapSecondConverter.unix_to_utc`:
`datetime.datetime.utcfromtimestamp(timestamp)`, i.e. the Unix epoch plus
the timestamp at microsecond resolution. -/
def unix_to_utc (timestamp : ℚ) : Int :=
  utc_unix_epoch + secondsToMicros timestamp

/-- The staleness check opening `_tai_minus_utc_at_utc` / `_tai_minus_utc_at_tai`:
`if time.time() > self._last_refresh + self._refresh_seconds: self._refresh()`.
Returns the state afterwards, how many times `_refresh` ran, and the
exception a failing refresh raised. -/
def refreshCheck (s : ConvState) (now : Int) (raw : String) :
    ConvState × Nat × Option BuildError :=
  if s.last_refresh + s.refresh_seconds < now then
    ((refresh s now raw).1, 1, (refresh s now raw).2)
  else (s, 0, none)

/-- Stateful `_tai_minus_utc_at_utc`: staleness check, then the scan over
the (possibly refreshed) table; `none` when the refresh raised. -/
def tai_minus_utc_at_utc_op (s : ConvState) (now : Int) (raw : String) (utc_dt : Int) :
    ConvState × Nat × Option ℚ :=
  let c := refreshCheck s now raw
  match c.2.2 with
  | some _ => (c.1, c.2.1, none)
  | none => (c.1, c.2.1, some (tai_minus_utc_at_utc c.1.leaptable utc_dt))

/-- Stateful `_tai_minus_utc_at_tai`. -/
def tai_minus_utc_at_tai_op (s : ConvState) (now : Int) (raw : String) (tai_dt : Int) :
    ConvState × Nat × Option ℚ :=
  let c := refreshCheck s now raw
  match c.2.2 with
  | some _ => (c.1, c.2.1, none)
  | none => (c.1, c.2.1, some (tai_minus_utc_at_tai c.1.leaptable tai_dt))

/-- Public `utc_to_tai` as a stateful call. -/
def utc_to_tai_op (s : ConvState) (now : Int) (raw : String) (utc_dt : Int) :
    ConvState × Nat × Option Int :=
  let a := tai_minus_utc_at_utc_op s now raw utc_dt
  (a.1, a.2.1, a.2.2.map (fun ls => utc_dt + secondsToMicros ls))

/-- Public `tai_to_utc` as a stateful call. -/
def tai_to_utc_op (s : ConvState) (now : Int) (raw : String) (tai_dt : Int) :
    ConvState × Nat × Option Int :=
  let a := tai_minus_utc_at_tai_op s now raw tai_dt
  (a.1, a.2.1, a.2.2.map (fun ls => tai_dt - secondsToMicros ls))

/-- Public `utc_to_unix`: pure arithmetic on the epoch constant — the body
performs no offset lookup and hence no staleness check. -/
def utc_to_unix_op (s : ConvState) (_now : Int) (_raw : String) (utc_dt : Int) :
    ConvState × Nat × Option ℚ :=
  (s, 0, some (utc_to_unix utc_dt))

/-- Public `unix_to_utc`: no offset lookup, no staleness check. -/
def unix_to_utc_op (s : ConvState) (_now : Int) (_raw : String) (timestamp : ℚ) :
    ConvState × Nat × Option Int :=
  (s, 0, some (unix_to_utc timestamp))

/-- Public `gps_to_tai`:
`self.tai_gps_epoch + datetime.timedelta(seconds=timestamp)`; no lookup. -/
def gps_to_tai_op (s : ConvState) (_now : Int) (_raw : String) (timestamp : ℚ) :
    ConvState × Nat × Option Int :=
  (s, 0, some (s.tai_gps_epoch + secondsToMicros timestamp))

/-- Public `tai_to_gps`:
`(tai_dt - self.tai_gps_epoch).total_seconds()`; no lookup. -/
def tai_to_gps_op (s : ConvState) (_now : Int) (_raw : String) (tai_dt : Int) :
    ConvState × Nat × Option ℚ :=
  (s, 0, some (((tai_dt - s.tai_gps_epoch : Int) : ℚ) / 1000000))

/-- Public `gps_to_gpsdatetime`:
`self.utc_gps_epoch + datetime.timedelta(seconds=timestamp)`; no lookup. -/
def gps_to_gpsdatetime_op (s : ConvState) (_now : Int) (_raw : String) (timestamp : ℚ) :
    ConvState × Nat × Option Int :=
  (s, 0, some (utc_gps_epoch + secondsToMicros timestamp))

/-- Public `gpsdatetime_to_gps`:
`(gps_dt - self.utc_gps_epoch).total_seconds()`; no lookup. -/
def gpsdatetime_to_gps_op (s : ConvState) (_now : Int) (_raw : String) (gps_dt : Int) :
    ConvState × Nat × Option ℚ :=
  (s, 0, some (((gps_dt - utc_gps_epoch : Int) : ℚ) / 1000000))

/-- Composed `gps_to_utc(t) = tai_to_utc(gps_to_tai(t))`. -/
def gps_to_utc_op (s : ConvState) (now : Int) (raw : String) (timestamp : ℚ) :
    ConvState × Nat × Option Int :=
  let a := gps_to_tai_op s now raw timestamp
  match a.2.2 with
  | none => (a.1, a.2.1, none)
  | some tai_dt =>
    let b := tai_to_utc_op a.1 now raw tai_dt
    (b.1, a.2.1 + b.2.1, b.2.2)

/-- Composed `utc_to_gps(x) = tai_to_gps(utc_to_tai(x))`. -/
def utc_to_gps_op (s : ConvState) (now : Int) (raw : String) (utc_dt : Int) :
    ConvState × Nat × Option ℚ :=
  let a := utc_to_tai_op s now raw utc_dt
  match a.2.2 with
  | none => (a.1, a.2.1, none)
  | some tai_dt =>
    let b := tai_to_gps_op a.1 now raw tai_dt
    (b.1, a.2.1 + b.2.1, b.2.2)

/-- Composed `gps_to_unix(t) = utc_to_unix(gps_to_utc(t))`. -/
def gps_to_unix_op (s : ConvState) (now : Int) (raw : String) (timestamp : ℚ) :
    ConvState × Nat × Option ℚ :=
  let a := gps_to_utc_op s now raw timestamp
  match a.2.2 with
  | none => (a.1, a.2.1, none)
  | some utc_dt =>
    let b := utc_to_unix_op a.1 now raw utc_dt
    (b.1, a.2.1 + b.2.1, b.2.2)

/-- Composed `unix_to_gps(t) = utc_to_gps(unix_to_utc(t))`. -/
def unix_to_gps_op (s : ConvState) (now : Int) (raw : String) (timestamp : ℚ) :
    ConvState × Nat × Option ℚ :=
  let a := unix_to_utc_op s now raw timestamp
  match a.2.2 with
  | none => (a.1, a.2.1, none)
  | some utc_dt =>
    let b := utc_to_gps_op a.1 now raw utc_dt
    (b.1, a.2.1 + b.2.1, b.2.2)

/-- A converter state that is stale at `now = 1`:
`last_refresh + refresh_seconds = 0 < 1` (e.g. `refresh_days = 0`). -/
def stStale : ConvState := ⟨[], 0, 0, 0, 0⟩

/-- C3 counterexample: with the table stale (`now > last_refresh +
refresh_seconds`), the public conversion `utc_to_unix` performs no refresh
at all and leaves the state untouched — it never consults the table, so it
never reaches the staleness check. -/
theorem c3_counterexample :
    stStale.last_refresh + stStale.refresh_seconds < 1 ∧
    (utc_to_unix_op stStale 1 "" 0).2.1 = 0 ∧
    (utc_to_unix_op stStale 1 "" 0).1 = stStale := by
  refine ⟨by decide, rfl, rfl⟩

theorem refreshCheck_stale (s : ConvState) (now : Int) (raw : String)
    (hstale : s.last_refresh + s.refresh_seconds < now) :
    refreshCheck s now raw = ((refresh s now raw).1, 1, (refresh s now raw).2) := by
  unfold refreshCheck
  rw [if_pos hstale]

/-- C3 amended: only the conversions that perform an offset lookup —
`utc_to_tai`, `tai_to_utc` and the composed `gps_to_utc`, `utc_to_gps`,
`gps_to_unix`, `unix_to_gps` — trigger a refresh when stale (exactly one
per call); `utc_to_unix`, `unix_to_utc`, `gps_to_tai`, `tai_to_gps`,
`gps_to_gpsdatetime` and `gpsdatetime_to_gps` never check staleness and
never refresh.  In particular, with `refreshIntervalSeconds = 0` the next
offset-consulting conversion call triggers exactly one refresh. -/
theorem c3_refresh_on_lookup_only (s : ConvState) (now : Int) (raw : String)
    (x y d : Int) (t q g : ℚ)
    (hstale : s.last_refresh + s.refresh_seconds < now) :
    ((utc_to_tai_op s now raw x).2.1 = 1 ∧
     (tai_to_utc_op s now raw y).2.1 = 1 ∧
     (gps_to_utc_op s now raw t).2.1 = 1 ∧
     (utc_to_gps_op s now raw x).2.1 = 1 ∧
     (gps_to_unix_op s now raw t).2.1 = 1 ∧
     (unix_to_gps_op s now raw q).2.1 = 1) ∧
    ((utc_to_unix_op s now raw x).2.1 = 0 ∧
     (unix_to_utc_op s now raw q).2.1 = 0 ∧
     (gps_to_tai_op s now raw t).2.1 = 0 ∧
     (tai_to_gps_op s now raw y).2.1 = 0 ∧
     (gps_to_gpsdatetime_op s now raw g).2.1 = 0 ∧
     (gpsdatetime_to_gps_op s now raw d).2.1 = 0) := by
  have hrc := refreshCheck_stale s now raw hstale
  have hUtcLk : ∀ x' : Int, (tai_minus_utc_at_utc_op s now raw x').2.1 = 1 := by
    intro x'
    unfold tai_minus_utc_at_utc_op
    rw [hrc]
    cases h2 : (refresh s now raw).2 <;> simp [h2]
  have hTaiLk : ∀ y' : Int, (tai_minus_utc_at_tai_op s now raw y').2.1 = 1 := by
    intro y'
    unfold tai_minus_utc_at_tai_op
    rw [hrc]
    cases h2 : (refresh s now raw).2 <;> simp [h2]
  have hUT : ∀ x' : Int, (utc_to_tai_op s now raw x').2.1 = 1 := by
    intro x'
    unfold utc_to_tai_op
    exact hUtcLk x'
  have hTU : ∀ y' : Int, (tai_to_utc_op s now raw y').2.1 = 1 := by
    intro y'
    unfold tai_to_utc_op
    exact hTaiLk y'
  have hGU : (gps_to_utc_op s now raw t).2.1 = 1 := by
    unfold gps_to_utc_op gps_to_tai_op
    simp [hTU]
  have hUG : ∀ x' : Int, (utc_to_gps_op s now raw x').2.1 = 1 := by
    intro x'
    unfold utc_to_gps_op
    cases hv : (utc_to_tai_op s now raw x').2.2 with
    | none => simp [hv, hUT x']
    | some tai_dt => simp [hv, hUT x', tai_to_gps_op]
  have hGUx : (gps_to_unix_op s now raw t).2.1 = 1 := by
    unfold gps_to_unix_op
    cases hv : (gps_to_utc_op s now raw t).2.2 with
    | none => simp [hv, hGU]
    | some utc_dt => simp [hv, hGU, utc_to_unix_op]
  have hUGx : (unix_to_gps_op s now raw q).2.1 = 1 := by
    unfold unix_to_gps_op unix_to_utc_op
    simp [hUG]
  exact ⟨⟨hUT x, hTU y, hGU, hUG x, hGUx, hUGx⟩, rfl, rfl, rfl, rfl, rfl, rfl⟩

/-- C3 witness: at a stale state, `utc_to_tai` refreshes exactly once and
`utc_to_unix` does not refresh. -/
theorem c3_witness :
    (utc_to_tai_op stStale 1 "" 0).2.1 = 1 ∧
    (utc_to_unix_op stStale 1 "" 0).2.1 = 0 :=
  ⟨(c3_refresh_on_lookup_only stStale 1 "" 0 0 0 0 0 0 (by decide)).1.1,
   (c3_refresh_on_lookup_only stStale 1 "" 0 0 0 0 0 0 (by decide)).2.1⟩

/-- C10: `unix_to_utc (utc_to_unix x) = x` for every UTC instant `x`, and
neither function consults the leap-second table: both stateful calls
return exactly the pure value with the state untouched and no refresh,
whatever the table is. -/
theorem c10_unix_roundtrip (x : Int) (s : ConvState) (now : Int) (raw : String) (t : ℚ) :
    unix_to_utc (utc_to_unix x) = x ∧
    utc_to_unix_op s now raw x = (s, 0, some (utc_to_unix x)) ∧
    unix_to_utc_op s now raw t = (s, 0, some (unix_to_utc t)) := by
  refine ⟨?_, rfl, rfl⟩
  unfold unix_to_utc utc_to_unix
  rw [secondsToMicros_eq_round]
  have h1 : ((x - utc_unix_epoch : Int) : ℚ) / 1000000 * 1000000 =
      ((x - utc_unix_epoch : Int) : ℚ) := by
    field_simp
  rw [h1, round_intCast]
  omega

/-- The Python exceptions the constructor path can raise. -/
inductive PyErr where
  /-- `NameError` / `UnboundLocalError`: evaluating an unbound name. -/
  | nameError (n : String)
  /-- `RuntimeError("directory ... does not exist")`. -/
  | runtimeError (msg : String)
  /-- A `TypeError`, e.g. from calling open with `None` as the filename. -/
  | typeError
  /-- `AttributeError`: `m.group(0)` when `re.search` returned `None`. -/
  | attributeError
deriving DecidableEq

/-- The names bound at module level by `pyleapsec.py`: the seven aliased
module imports and the class.  Importing os.path under the alias `_ospath`
binds ONLY `_ospath`;
the name `os` is never bound, so every occurrence of `os.getcwd` /
`os.listdir` raises `NameError` when evaluated. -/
def moduleGlobals : List String :=
  ["_datetime", "_calendar", "_time", "_urllib2", "_ssl", "_ospath", "_re",
   "LeapSecondConverter"]

/-- Class attribute `_leapfile_prefix = "leap_second_converter_"`. -/
def leapfilePfx : String := "leap_second_converter_"

/-- Python `fn.startswith(p)`. -/
def pyStartsWith (s p : String) : Bool := List.isPrefixOf p.data s.data

/-- The selection logic of `_find_latest_filename_in_dir` after the
directory listing is obtained: filter by the name prefix; `sorted(candidates)`
is computed but only its length is consulted — the returned element is
`candidates[-1]`, the last name in the order the directory enumeration
yielded it, not the greatest one. -/
def select_latest (listing : List String) (pfx : String) : Option String :=
  let candidates := listing.filter (fun fn => pyStartsWith fn pfx)
  if 0 < (List.insertionSort (fun a b : String => a.data < b.data) candidates).length then
    candidates.getLast?
  else none

/-- Method `LeapSecondConverter._find_latest_filename_in_dir`, given the `isdir`
answer and the enumeration `os.listdir` would yield: a missing directory
raises `RuntimeError`; otherwise evaluating the unbound global `os` (for
`os.listdir`) raises `NameError` before the selection logic can run. -/
def find_latest_filename_in_dir (isdir : Bool) (listing : List String) (pfx : String) :
    Except PyErr (Option String) :=
  if ¬ isdir then .error (.runtimeError "directory does not exist")
  else if moduleGlobals.contains "os" then .ok (select_latest listing pfx)
  else .error (.nameError "os")

/-- Method `LeapSecondConverter._extract_timestamp_from_filename`: the int
value of the run of digits at the end of the filename (found by the regex
search) when `fn` is not `None`, else 0. -/
def extract_timestamp (fn : Option String) : Except PyErr Int :=
  match fn with
  | none => .ok 0
  | some f =>
    let ds := (f.data.reverse.takeWhile (fun c => c.isDigit)).reverse
    if ds = [] then .error .attributeError
    else .ok ((natOfDigits ds : Int))

/-- How far `LeapSecondConverter.__init__` gets before handing over to an
external collaborator: `willRefresh` = it reached the `self._refresh()`
call (network fetch), `willLoadCache f` = it reached the open call
on cache file `f`. -/
inductive InitOutcome where
  | willRefresh
  | willLoadCache (leapfile : String)
deriving DecidableEq

/-- The cache-inspection path of `__init__` (lines 37-50) once the cache
directory name `cd` is settled: find the latest cache file, extract
`self._last_refresh` from its name, then either refresh or load the file. -/
def initCachePath (refresh_seconds : Int) (cd : String) (isdir : String → Bool)
    (listing : String → List String) (now : Int) : Except PyErr InitOutcome :=
  match find_latest_filename_in_dir (isdir cd) (listing cd) leapfilePfx with
  | .error e => .error e
  | .ok leapfile =>
    match extract_timestamp leapfile with
    | .error e => .error e
    | .ok last_refresh =>
      if last_refresh + refresh_seconds < now then .ok .willRefresh
      else
        match leapfile with
        | some f => .ok (.willLoadCache f)
        | none => .error .typeError

/-- Constructor `LeapSecondConverter.__init__(refresh_days, cache_dir)` up to the point
where it either fails, refreshes, or loads the cache file.  With
`cache_dir == ''` (the default) the constructor evaluates `os.getcwd()`,
and the unbound global `os` raises `NameError`; with `cache_dir = None` no
cache is consulted (and the local `leapfile` is never assigned). -/
def init_model (refresh_days : Int) (cache_dir : Option String) (cwd : String)
    (isdir : String → Bool) (listing : String → List String) (now : Int) :
    Except PyErr InitOutcome :=
  let refresh_seconds := refresh_days * 86400
  match cache_dir with
  | none =>
    if (0 : Int) + refresh_seconds < now then .ok .willRefresh
    else .error (.nameError "leapfile")
  | some cd0 =>
    if cd0 = "" then
      if moduleGlobals.contains "os" then
        initCachePath refresh_seconds cwd isdir listing now
      else .error (.nameError "os")
    else initCachePath refresh_seconds cd0 isdir listing now

def noDirs : String → Bool := fun _ => false

def allDirs : String → Bool := fun _ => true

def emptyListing : String → List String := fun _ => []

/-- C5 counterexample: with a cache_dir naming a nonexistent directory
(still not `None`), construction fails with `RuntimeError` from the
`_ospath.isdir` guard — not with `NameError`, because `os.listdir` is
never reached. -/
theorem c5_counterexample :
    init_model 30 (some "missing") "/cwd" noDirs emptyListing 0 =
      .error (.runtimeError "directory does not exist") ∧
    ¬ (init_model 30 (some "missing") "/cwd" noDirs emptyListing 0 =
      .error (.nameError "os")) := by
  constructor
  · rfl
  · intro h
    rw [show init_model 30 (some "missing") "/cwd" noDirs emptyListing 0 =
      .error (.runtimeError "directory does not exist") from rfl] at h
    injection h with h2
    exact PyErr.noConfusion h2

/-- C5 amended: for every `cache_dir` other than `None`, construction fails
before any table is built: with `NameError` (unbound `os`) when
`cache_dir == ''` (the default, via `os.getcwd`) or when it names an
existing directory (via `os.listdir`), and with
`RuntimeError("directory does not exist")` when it names a nonexistent
directory; in particular construction with default arguments never
succeeds. -/
theorem c5_construction_always_fails (days now : Int) (cwd : String)
    (isdir : String → Bool) (listing : String → List String) (cd : String) :
    (cd = "" → init_model days (some cd) cwd isdir listing now =
      .error (.nameError "os")) ∧
    (cd ≠ "" → isdir cd = true → init_model days (some cd) cwd isdir listing now =
      .error (.nameError "os")) ∧
    (cd ≠ "" → isdir cd = false → init_model days (some cd) cwd isdir listing now =
      .error (.runtimeError "directory does not exist")) := by
  refine ⟨?_, ?_, ?_⟩
  · intro h
    subst h
    rfl
  · intro hne htrue
    simp only [init_model]
    rw [if_neg hne]
    unfold initCachePath
    rw [show find_latest_filename_in_dir (isdir cd) (listing cd) leapfilePfx =
      .error (.nameError "os") from by rw [htrue]; rfl]
  · intro hne hfalse
    simp only [init_model]
    rw [if_neg hne]
    unfold initCachePath
    rw [show find_latest_filename_in_dir (isdir cd) (listing cd) leapfilePfx =
      .error (.runtimeError "directory does not exist") from by rw [hfalse]; rfl]

/-- C5 witness: an existing cache directory still yields `NameError`, and
so does the default `cache_dir = ''`. -/
theorem c5_witness :
    init_model 30 (some "/tmp") "/" allDirs emptyListing 0 =
      .error (.nameError "os") :=
  (c5_construction_always_fails 30 0 "/" allDirs emptyListing "/tmp").2.1
    (by decide) rfl

/-- A directory enumeration that yields the candidate files out of order:
the file with the greatest timestamp suffix comes first. -/
def listingOutOfOrder : List String :=
  ["leap_second_converter_2", "leap_second_converter_1"]

/-- C8: `_find_latest_filename_in_dir` evaluated at the failing input.  The
selection logic returns `candidates[-1]` — the LAST name in enumeration
order (`leap_second_converter_1`), not the greatest suffix
(`leap_second_converter_2`); `sorted(candidates)` is computed and then
discarded.  And in the module as written the function can never even reach
that logic: a missing directory raises the `RuntimeError`, an existing one
raises `NameError` because the global `os` is unbound. -/
theorem c8_find_latest_eval :
    select_latest listingOutOfOrder leapfilePfx = some "leap_second_converter_1" ∧
    find_latest_filename_in_dir false listingOutOfOrder leapfilePfx =
      .error (.runtimeError "directory does not exist") ∧
    find_latest_filename_in_dir true listingOutOfOrder leapfilePfx =
      .error (.nameError "os") := by
  refine ⟨by decide, rfl, rfl⟩

end Pyleapsec
